import Mathlib

/-! sevensquare: the device session engine of `adbfb.cpp`

A shallow embedding of the parts of `src/adbfb.cpp` that decide the specified
properties, followed by the theorems about them.

Conventions of the embedding

* C++ `int` is `Int`; the 32-bit wrap is written out where a result depends
  on it (`uint32_t` to `int` in the header decoder, the product returned by the
  pixel conversion); signed overflow elsewhere is undefined in C++ and is not
  modelled.
* a `QByteArray` holding binary capture data is a `List Nat` of byte values,
  a `QByteArray` holding text from the device shell is a `List Char`,
  a `QString` is a `String`, a `QStringList` is a `List String`.
* member functions take the object state as an argument and return the new
  state; `emit` appends to an event trace kept in the state.
* what the device answers (shell output, backlight readings) is an argument.
* `adbfb.h` is not part of the sources at hand: its constants are parameters
  and its inline helpers are marked where they are modelled.
-/

namespace Sevensquare

/-! ## ADB: the delay controller -/

/-- State of class `ADB`: the members `delay` and `connected`, and the number
of `delayCond.wakeAll()` calls issued so far. -/
structure ADB where
  delay : Int
  connected : Bool
  wakes : Nat
  deriving DecidableEq, Repr

/-- Member `ADB::setDelay(int d)`: stores the delay and wakes every waiter. -/
def ADB.setDelay (s : ADB) (d : Int) : ADB :=
  { s with delay := d, wakes := s.wakes + 1 }

/-- Member `ADB::increaseDelay()`: `DELAY_MAX` and `DELAY_STEP` are enumerators of
`adbfb.h`, taken as parameters. Returns the value returned and the new state. -/
def ADB.increaseDelay (DELAY_MAX DELAY_STEP : Int) (s : ADB) : Int × ADB :=
  let s1 := if s.delay < DELAY_MAX then { s with delay := s.delay + DELAY_STEP } else s
  (s1.delay, s1)

/-- Modelled from the spec: `ADB::isConnected()` is an inline accessor of
`adbfb.h`; it reads the connectivity state kept in the member `connected`. -/
def ADB.isConnected (s : ADB) : Bool := s.connected

/-- Modelled from the spec: `ADB::setConnected(bool)` is an inline member of
`adbfb.h`; it stores the connectivity state in the member `connected`. -/
def ADB.setConnected (s : ADB) (state : Bool) : ADB := { s with connected := state }

/-! ## FBEx: the frame decoder -/

/-- The pixel-format enumerators `PIXEL_FORMAT_*` of `adbfb.h` that
`getScreenInfo` and `sendNewFB` name, taken as parameters. -/
structure PixelFormats where
  PIXEL_FORMAT_RGBX_565 : Int
  PIXEL_FORMAT_RGB_888 : Int
  PIXEL_FORMAT_RGBX_8888 : Int
  deriving DecidableEq, Repr

/-- Signals emitted by `FBEx`. -/
inductive FBSignal where
  | newFBFound (width height format : Int)
  | deviceDisconnected
  | newFrame (frame : List Nat)
  deriving DecidableEq, Repr

/-- State of class `FBEx` (derived from `ADB`): the stored geometry, the
capture buffer `bytes`, the frame `out` handed to the display, and the signals
emitted so far. -/
structure FBEx extends ADB where
  fb_width : Int
  fb_height : Int
  fb_format : Int
  bpp : Int
  bytes : List Nat
  out : List Nat
  emitted : List FBSignal
  deriving DecidableEq, Repr

/-- Qt member `QByteArray::mid(pos, len)`: the bytes from `pos` on, at most `len` of
them; a negative `len` takes all that remain. -/
def mid (b : List Nat) (pos : Nat) (len : Int) : List Nat :=
  if len < 0 then b.drop pos else (b.drop pos).take len.toNat

/-- Conversion of a `uint32_t` value to `int` (return of `bigEndianToInt32`),
and of a wrapped 32-bit `int` result: the value modulo 2^32, read as signed. -/
def toInt32 (v : Int) : Int :=
  if v % 4294967296 < 2147483648 then v % 4294967296 else v % 4294967296 - 4294967296

/-- The byte that `buf[i]` reads; bytes past the end of the array read as 0. -/
def byteAt (b : List Nat) (i : Nat) : Nat := b.getD i 0 % 256

/-- Function `bigEndianToInt32`: `bcopy(buf, &v, sizeof(uint32_t)); return v;`. The four
bytes land in the host's `uint32_t` in memory order, so the value depends on
the byte order of the host, which is the parameter `hostLittleEndian`. -/
def bigEndianToInt32 (hostLittleEndian : Bool) (bytes : List Nat) : Int :=
  let v : Nat :=
    if hostLittleEndian then
      byteAt bytes 0 + 256 * byteAt bytes 1 + 65536 * byteAt bytes 2 + 16777216 * byteAt bytes 3
    else
      16777216 * byteAt bytes 0 + 65536 * byteAt bytes 1 + 256 * byteAt bytes 2 + byteAt bytes 3
  toInt32 v

/-- Member `FBEx::getScreenInfo`: returns the status and the new state. The `switch`
is written as a chain of tests (its case labels are distinct constants). -/
def FBEx.getScreenInfo (hostLittleEndian : Bool) (pf : PixelFormats) (s : FBEx)
    (bytes : List Nat) : Int × FBEx :=
  let width := bigEndianToInt32 hostLittleEndian (mid bytes 0 4)
  let height := bigEndianToInt32 hostLittleEndian (mid bytes 4 4)
  let format := bigEndianToInt32 hostLittleEndian (mid bytes 8 4)
  if width ≤ 0 ∨ height ≤ 0 then (-1, s)
  else
    let s1 := { s with fb_width := width, fb_height := height, fb_format := format }
    if format = pf.PIXEL_FORMAT_RGBX_565 then (0, { s1 with bpp := 2 })
    else if format = pf.PIXEL_FORMAT_RGB_888 then (0, { s1 with bpp := 3 })
    else if format = pf.PIXEL_FORMAT_RGBX_8888 then (0, { s1 with bpp := 4 })
    else (-1, s1)

/-- The capture buffer together with the two pointers of
`convertRGBAtoRGB888`, kept as indices into the buffer: `p` writes, `n` reads. -/
structure Cursor where
  buf : List Nat
  p : Nat
  n : Nat
  deriving DecidableEq, Repr

/-- The statement `*p++ = *n++;` -/
def Cursor.copyByte (c : Cursor) : Cursor :=
  { buf := c.buf.set c.p (c.buf.getD c.n 0), p := c.p + 1, n := c.n + 1 }

/-- The statement `n++;` -/
def Cursor.skipByte (c : Cursor) : Cursor := { c with n := c.n + 1 }

/-- Body of the inner loop: three bytes copied, the fourth skipped. -/
def Cursor.pixel (c : Cursor) : Cursor := c.copyByte.copyByte.copyByte.skipByte

/-- The loop `for (x = 0; x < fb_width; x++)`, by the iterations that remain. -/
def rowLoop : Nat → Cursor → Cursor
  | 0, c => c
  | k + 1, c => rowLoop k c.pixel

/-- The loop `for (y = 0; y < fb_height; y++)`, by the iterations that remain. -/
def frameLoop (width : Nat) : Nat → Cursor → Cursor
  | 0, c => c
  | k + 1, c => frameLoop width k (rowLoop width c)

/-- Member `FBEx::convertRGBAtoRGB888(bytes, offset)`: the buffer after the in-place
copy and the returned length `fb_width * fb_height * 3` (a 32-bit product). -/
def FBEx.convertRGBAtoRGB888 (s : FBEx) (bytes : List Nat) (offset : Nat) : List Nat × Int :=
  ((frameLoop s.fb_width.toNat s.fb_height.toNat { buf := bytes, p := offset, n := offset }).buf,
    toInt32 (s.fb_width * s.fb_height * 3))

/-- Modelled from the spec: the macro `FB_DATA_OFFSET` of `adbfb.h`, the size
of the capture header: the pixel payload starts at byte 12. -/
def FB_DATA_OFFSET : Nat := 12

/-- Modelled from the spec: `FBEx::length()` is an inline member of `adbfb.h`;
the required length of a capture is header size + width*height*bpp. -/
def FBEx.length (s : FBEx) : Int := FB_DATA_OFFSET + s.fb_width * s.fb_height * s.bpp

/-- Member `FBEx::setConnected(bool state)`. -/
def FBEx.setConnected (s : FBEx) (state : Bool) : FBEx :=
  if s.toADB.isConnected = state then s
  else
    let s1 : FBEx := { s with toADB := s.toADB.setConnected state }
    if state then
      { s1 with emitted := s1.emitted ++ [FBSignal.newFBFound s1.fb_width s1.fb_height s1.fb_format] }
    else
      { s1 with emitted := s1.emitted ++ [FBSignal.deviceDisconnected] }

/-- Member `FBEx::sendNewFB()`. -/
def FBEx.sendNewFB (pf : PixelFormats) (s : FBEx) : FBEx :=
  if (s.bytes.length : Int) < s.length then s.setConnected false
  else
    let r : List Nat × Int :=
      if s.fb_format = pf.PIXEL_FORMAT_RGBX_8888 then s.convertRGBAtoRGB888 s.bytes FB_DATA_OFFSET
      else (s.bytes, s.length)
    let frame := mid r.1 FB_DATA_OFFSET r.2
    { s with bytes := r.1, out := frame, emitted := s.emitted ++ [FBSignal.newFrame frame] }

/-- The big-endian 32-bit encoding of a value, most significant byte first:
the layout the capture header is specified to have. -/
def encodeBE32 (v : Int) : List Nat :=
  [(v / 16777216 % 256).toNat, (v / 65536 % 256).toNat, (v / 256 % 256).toNat, (v % 256).toNat]

/-- The frame the spec describes for an RGBX8888 payload: for each of the
`count` pixels in order, its first three bytes. -/
def dropFourth (payload : List Nat) : Nat → List Nat
  | 0 => []
  | k + 1 => dropFourth payload k ++
      [payload.getD (4 * k) 0, payload.getD (4 * k + 1) 0, payload.getD (4 * k + 2) 0]

/-! ## Text returned by the device shell -/

/-- Qt member `QByteArray::split(char sep)`: the fields between separators; empty fields
are kept, and an empty array gives one empty field. -/
def split (sep : Char) : List Char → List (List Char)
  | [] => [[]]
  | c :: cs =>
    if c = sep then [] :: split sep cs
    else
      match split sep cs with
      | [] => [[c]]
      | w :: ws => (c :: w) :: ws

/-- Qt member `QByteArray::indexOf(const char *)` searching from position `i`: the index
of the first occurrence, or -1. -/
def indexOfFrom (key : List Char) : List Char → Nat → Int
  | [], i => if key.isPrefixOf [] then (i : Int) else -1
  | c :: cs, i => if key.isPrefixOf (c :: cs) then (i : Int) else indexOfFrom key cs (i + 1)

/-- Qt member `QByteArray::indexOf(const char *)`. -/
def indexOf (line key : List Char) : Int := indexOfFrom key line 0

/-- The characters `isspace` accepts. -/
def isSpace (c : Char) : Bool :=
  c = ' ' || c = '\t' || c = '\n' || c = '\x0b' || c = '\x0c' || c = '\r'

/-- The maximal runs of non-space characters of a text, in order. -/
def tokens : List Char → List (List Char)
  | [] => []
  | c :: cs =>
    if isSpace c then tokens cs
    else
      match cs with
      | [] => [[c]]
      | d :: _ =>
        if isSpace d then [c] :: tokens cs
        else
          match tokens cs with
          | [] => [[c]]
          | w :: ws => (c :: w) :: ws

/-- Qt member `QByteArray::simplified()`: white space removed at both ends, each inner
run of white space replaced by one space. -/
def simplified (b : List Char) : List Char := [' '].intercalate (tokens b)

/-- Decimal value of a run of digits, `none` when a character is no digit. -/
def parseDigits : List Char → Nat → Option Nat
  | [], acc => some acc
  | c :: cs, acc =>
    if '0' ≤ c ∧ c ≤ '9' then parseDigits cs (10 * acc + (c.toNat - '0'.toNat)) else none

/-- Qt member `QByteArray::toInt()` (base 10): white space around the number is
accepted, a sign may precede the digits, and 0 is returned when the text is
no number or the number does not fit an `int`. -/
def toInt (b : List Char) : Int :=
  match tokens b with
  | [t] =>
    let body : Bool × List Char :=
      match t with
      | '-' :: r => (true, r)
      | '+' :: r => (false, r)
      | r => (false, r)
    match body.2 with
    | [] => 0
    | ds =>
      match parseDigits ds 0 with
      | none => 0
      | some v =>
        let z : Int := if body.1 then -(v : Int) else v
        if -2147483648 ≤ z ∧ z < 2147483648 then z else 0
  | _ => 0

/-- Qt member `QString::number(int)`. -/
def number (v : Int) : String := toString v

/-- What a finished `Commander` / `AdbExecutor` holds: exit code and standard
output. -/
structure Commander where
  ret : Int
  output : List Char
  deriving DecidableEq, Repr

/-- Modelled from the spec: `Commander::exitSuccess()` is an inline member of
`adbfb.h`; a command exited successfully when its exit code is 0. -/
def Commander.exitSuccess (c : Commander) : Bool := c.ret = 0

/-- Modelled from the spec: `Commander::outputLines()` is an inline member of
`adbfb.h`; the listing is plain text, one device name per line. -/
def Commander.outputLines (c : Commander) : List (List Char) := split '\n' c.output

/-- The loop of `Commander::outputLinesHas` over the lines. `line[0]` of an
empty line is no `'#'`. -/
def linesHasLoop (key : List Char) (ignoreComment : Bool) :
    List (List Char) → List (List Char) → List (List Char)
  | [], matches_ => matches_
  | line :: rest, matches_ =>
    if ignoreComment && line.head? == some '#' then linesHasLoop key ignoreComment rest matches_
    else if indexOf line key > 0 then linesHasLoop key ignoreComment rest (matches_ ++ [line])
    else linesHasLoop key ignoreComment rest matches_

/-- Member `Commander::outputLinesHas(key, ignoreComment)`. -/
def Commander.outputLinesHas (c : Commander) (key : List Char) (ignoreComment : Bool) :
    List (List Char) :=
  if c.output.length = 0 then []
  else linesHasLoop key ignoreComment (split '\n' c.output) []

/-! ## AdbExecObject: power key discovery, wake-up, input synthesis -/

/-- What the device answers to the shell commands of `AdbExecObject`. The
paths are macros of `adbfb.h`, so the answers are indexed by what varies:
`inputNameList` is the result of `cat SYS_INPUT_NAME_LIST`, `keyLayout name`
the result of `cat KEYLAYOUT_DIR name KEYLAYOUT_EXT`, and `backlight k` the
result of the `k`-th `cat SYS_LCD_BACKLIGHT` (counted from 0). -/
structure Device where
  inputNameList : Commander
  keyLayout : String → Commander
  backlight : Nat → Commander

/-- Class `DeviceKeyInfo`. -/
structure DeviceKeyInfo where
  keyLayout : String
  eventDeviceIdx : Int
  powerKeycode : Int
  wakeSucessed : Bool
  deriving DecidableEq, Repr

/-- Modelled from the spec: the constructor `DeviceKeyInfo(name, idx, code)`
is declared in `adbfb.h`; a new candidate is not yet marked unsuccessful. -/
def DeviceKeyInfo.new (name : String) (idx code : Int) : DeviceKeyInfo :=
  { keyLayout := name, eventDeviceIdx := idx, powerKeycode := code, wakeSucessed := true }

/-- Class `QPoint`. -/
structure QPoint where
  x : Int
  y : Int
  deriving DecidableEq, Repr

/-- Class `QRect` of Qt: the corners `(x1, y1)` and `(x2, y2)`, both inside. -/
structure QRect where
  x1 : Int
  y1 : Int
  x2 : Int
  y2 : Int
  deriving DecidableEq, Repr

/-- The Qt constructor `QRect(left, top, width, height)`. -/
def QRect.ofSize (left top width height : Int) : QRect :=
  { x1 := left, y1 := top, x2 := left + width - 1, y2 := top + height - 1 }

/-- The Qt member `QRect::isNull()`. -/
def QRect.isNull (r : QRect) : Bool := r.x2 = r.x1 - 1 && r.y2 = r.y1 - 1

/-- The Qt member `QRect::contains(const QPoint &, bool proper = false)` with
`proper` left at its default: edges count as inside. -/
def QRect.contains (r : QRect) (pt : QPoint) : Bool :=
  if r.isNull then false
  else
    let l := if r.x2 < r.x1 - 1 then r.x2 else r.x1
    let rr := if r.x2 < r.x1 - 1 then r.x1 else r.x2
    if pt.x < l ∨ pt.x > rr then false
    else
      let t := if r.y2 < r.y1 - 1 then r.y2 else r.y1
      let b := if r.y2 < r.y1 - 1 then r.y1 else r.y2
      if pt.y < t ∨ pt.y > b then false else true

/-- The enumerators `ANDROID_ICS`, `ANDROID_JB` of `adbfb.h`, and any other
value of the `int` member `osType`. -/
inductive OsType where
  | ANDROID_ICS
  | ANDROID_JB
  | other
  deriving DecidableEq, Repr

/-- What `AdbExecObject` does that is visible outside: the signals it emits
and the power-key commands it runs. -/
inductive AdbSignal where
  | newCommand (cmds : List String)
  | newPropmtMessae (text : String)
  | deviceDisconnected
  | screenTurnedOn
  | sendPowerKey (deviceIdx code : Int)
  deriving DecidableEq, Repr

/-- State of class `AdbExecObject`; `reads` counts the backlight readings
taken so far. -/
structure AdbExecObject where
  osType : OsType
  lcdBrightness : Int
  keyInfos : List DeviceKeyInfo
  posPress : QPoint
  reads : Nat
  emitted : List AdbSignal
  deriving DecidableEq, Repr

/-- Append to the trace of signals. -/
def AdbExecObject.emit (s : AdbExecObject) (e : AdbSignal) : AdbExecObject :=
  { s with emitted := s.emitted ++ [e] }

/-- Modelled from the spec: `AdbExecObject::screenIsOn()` is an inline member
of `adbfb.h`; a backlight value of 0 means the screen is off. -/
def AdbExecObject.screenIsOn (s : AdbExecObject) : Bool := s.lcdBrightness > 0

/-- Member `AdbExecObject::getDeviceLCDBrightness()`. -/
def AdbExecObject.getDeviceLCDBrightness (dev : Device) (s : AdbExecObject) :
    Int × AdbExecObject :=
  let adb := dev.backlight s.reads
  let s1 := { s with reads := s.reads + 1 }
  if ! adb.exitSuccess then (-1, s1.emit AdbSignal.deviceDisconnected)
  else (toInt (simplified adb.output), s1)

/-- The loop of `getKeyCodeFromKeyLayout` over the matching lines; the
reference parameter `code` is returned beside the result. -/
def keyLineLoop : List (List Char) → Int → Bool × Int
  | [], code => (false, code)
  | line :: rest, code =>
    if indexOf line "key".toList = 0 then
      let words := split ' ' line
      if words.length > 1 then (true, toInt (words.getD 1 []))
      else keyLineLoop rest code
    else keyLineLoop rest code

/-- Member `AdbExecObject::getKeyCodeFromKeyLayout(keylayout, key, code)`. The default
of `ignoreComment` is declared in `adbfb.h` and is a parameter. -/
def getKeyCodeFromKeyLayout (dev : Device) (ignoreComment : Bool) (keylayout : String)
    (key : List Char) (code : Int) : Bool × Int :=
  keyLineLoop ((dev.keyLayout keylayout).outputLinesHas key ignoreComment) code

/-- First loop of `probeDevicePowerKey`: one candidate per non-empty line. -/
def listingLoop : List (List Char) → List DeviceKeyInfo → List DeviceKeyInfo
  | [], keyInfos => keyInfos
  | l :: rest, keyInfos =>
    let line := simplified l
    if line.length > 0 then listingLoop rest (keyInfos ++ [DeviceKeyInfo.new (String.mk line) 0 0])
    else listingLoop rest keyInfos

/-- Second loop of `probeDevicePowerKey`, from index `i`, with `fuel` bounding
the iterations that remain; `code` is the local variable of that name (not
initialised in the source, and only stored after a successful lookup has
assigned it). -/
def layoutLoop (dev : Device) (ignoreComment : Bool) :
    Nat → Nat → Int → List DeviceKeyInfo → List DeviceKeyInfo
  | 0, _, _, keyInfos => keyInfos
  | fuel + 1, i, code, keyInfos =>
    match keyInfos[i]? with
    | none => keyInfos
    | some info =>
      let r := getKeyCodeFromKeyLayout dev ignoreComment info.keyLayout "POWER".toList code
      if r.1 then
        layoutLoop dev ignoreComment fuel (i + 1) r.2
          (keyInfos.set i { info with eventDeviceIdx := i, powerKeycode := r.2 })
      else layoutLoop dev ignoreComment fuel (i + 1) r.2 keyInfos

/-- The loop `for (i = 0; i < keyInfos.size(); i++) if (drop keyInfos[i])
keyInfos.removeAt(i);` shared by `probeDevicePowerKey` and
`wakeUpDeviceViaPowerKey`, from index `i`; `fuel` bounds the iterations that
remain (each needs `i < size`, and `size - i` falls with each). -/
def removeLoop (drop : DeviceKeyInfo → Bool) : Nat → Nat → List DeviceKeyInfo → List DeviceKeyInfo
  | 0, _, keyInfos => keyInfos
  | fuel + 1, i, keyInfos =>
    match keyInfos[i]? with
    | none => keyInfos
    | some info =>
      if drop info then removeLoop drop fuel (i + 1) (keyInfos.eraseIdx i)
      else removeLoop drop fuel (i + 1) keyInfos

/-- The discovery part of `AdbExecObject::probeDevicePowerKey`: from
`keyInfos.clear()` to the end of the pruning loop, for a given OS type
detected, on the path where the listing command succeeds (on the other path
the function returns after `deviceDisconnected`). The wake-up that follows is
`wakeUpDevice`. -/
def AdbExecObject.probeDiscovery (dev : Device) (ignoreComment : Bool) (os : OsType)
    (s : AdbExecObject) : AdbExecObject :=
  let s1 := { s.emit (AdbSignal.newPropmtMessae "Probing device...") with
    osType := os, lcdBrightness := 100, keyInfos := [] }
  let adb := dev.inputNameList
  if ! adb.exitSuccess then s1.emit AdbSignal.deviceDisconnected
  else
    let k1 := listingLoop adb.outputLines s1.keyInfos
    let k2 := layoutLoop dev ignoreComment k1.length 0 0 k1
    let k3 := removeLoop (fun info => info.powerKeycode == 0) k2.length 0 k2
    { s1 with keyInfos := k3 }

/-- Member `AdbExecObject::sendPowerKey(deviceIdx, code)`: runs the key-event command
sequence for the device index and key code; recorded in the trace. -/
def AdbExecObject.sendPowerKey (s : AdbExecObject) (deviceIdx code : Int) : AdbExecObject :=
  s.emit (AdbSignal.sendPowerKey deviceIdx code)

/-- The loop `int cnt = 5; while (cnt-- > 0) { ... }` of
`wakeUpDeviceViaPowerKey`, by the polls that remain. -/
def pollLoop (dev : Device) : Nat → AdbExecObject → AdbExecObject
  | 0, s => s
  | cnt + 1, s =>
    let r := s.getDeviceLCDBrightness dev
    if r.1 > 0 then { r.2 with lcdBrightness := r.1 }.emit AdbSignal.screenTurnedOn
    else pollLoop dev cnt r.2

/-- First loop of `wakeUpDeviceViaPowerKey`, from index `i`, with `fuel`
bounding the iterations that remain. -/
def wakeLoop (dev : Device) : Nat → Nat → AdbExecObject → AdbExecObject
  | 0, _, s => s
  | fuel + 1, i, s =>
    match s.keyInfos[i]? with
    | none => s
    | some info =>
      let s1 := pollLoop dev 5 (s.sendPowerKey info.eventDeviceIdx info.powerKeycode)
      if ! s1.screenIsOn then
        wakeLoop dev fuel (i + 1)
          { s1 with keyInfos := s1.keyInfos.set i { info with wakeSucessed := false } }
      else wakeLoop dev fuel (i + 1) s1

/-- Member `AdbExecObject::wakeUpDeviceViaPowerKey()`. -/
def AdbExecObject.wakeUpDeviceViaPowerKey (dev : Device) (s : AdbExecObject) : AdbExecObject :=
  let s1 := wakeLoop dev s.keyInfos.length 0 s
  { s1 with keyInfos := removeLoop (fun info => ! info.wakeSucessed) s1.keyInfos.length 0 s1.keyInfos }

/-- Member `AdbExecObject::sendTap(pos, press)`. -/
def AdbExecObject.sendTap (s : AdbExecObject) (pos : QPoint) (press : Bool) : AdbExecObject :=
  if press then { s with posPress := pos }
  else
    let isTap := (QRect.ofSize (-1) (-1) 2 2).contains ⟨pos.x - s.posPress.x, pos.y - s.posPress.y⟩
    let cmds : List String := ["shell"]
    let cmds :=
      if isTap then cmds ++ ["input tap"]
      else cmds ++ ["input swipe"] ++ [number s.posPress.x] ++ [number s.posPress.y]
    let cmds := cmds ++ [number pos.x] ++ [number pos.y]
    s.emit (AdbSignal.newCommand cmds)

/-- Member `AdbExecObject::newEventCmd(type, code, value)`. -/
def newEventCmd (type code value : Int) : List String :=
  ["sendevent", "/dev/input/event0"] ++ [number type] ++ [number code] ++ [number value] ++ [";"]

/-- Member `AdbExecObject::sendEvent(pos, press, release)`. -/
def AdbExecObject.sendEvent (s : AdbExecObject) (pos : QPoint) (press release : Bool) :
    AdbExecObject :=
  let cmds : List String := ["shell"]
  let cmds := cmds ++ newEventCmd 3 0x35 pos.x
  let cmds := cmds ++ newEventCmd 3 0x36 pos.y
  let cmds := if press then cmds ++ newEventCmd 1 0x14a 1 else cmds
  let cmds := cmds ++ newEventCmd 3 0 pos.x
  let cmds := cmds ++ newEventCmd 3 1 pos.y
  let cmds := cmds ++ newEventCmd 0 0 0
  let cmds :=
    if release then (cmds ++ newEventCmd 1 0x14a 0) ++ newEventCmd 0 0 0 else cmds
  s.emit (AdbSignal.newCommand cmds)

/-- Member `AdbExecObject::sendVirtualClick(pos, press, release)`. -/
def AdbExecObject.sendVirtualClick (s : AdbExecObject) (pos : QPoint) (press release : Bool) :
    AdbExecObject :=
  match s.osType with
  | OsType.ANDROID_ICS => s.sendEvent pos press release
  | OsType.ANDROID_JB => if press || release then s.sendTap pos press else s
  | OsType.other => s

/-- One raw input event as the spec names it: the device index it targets and
its (type, code, value). -/
structure RawEvent where
  deviceIdx : Nat
  type : Int
  code : Int
  value : Int
  deriving DecidableEq, Repr

/-- The words of the shell command that injects one raw event. -/
def RawEvent.words (e : RawEvent) : List String :=
  ["sendevent", "/dev/input/event" ++ toString e.deviceIdx, number e.type, number e.code,
    number e.value, ";"]

/-- The raw event sequence the spec gives for the legacy variant: coordinate
updates, touch-down on press, coordinates and sync, then on release touch-up
and a second sync, all on device index 0. -/
def legacyEvents (pos : QPoint) (press release : Bool) : List RawEvent :=
  [⟨0, 3, 0x35, pos.x⟩, ⟨0, 3, 0x36, pos.y⟩]
    ++ (if press then [⟨0, 1, 0x14a, 1⟩] else [])
    ++ [⟨0, 3, 0, pos.x⟩, ⟨0, 3, 1, pos.y⟩, ⟨0, 0, 0, 0⟩]
    ++ (if release then [⟨0, 1, 0x14a, 0⟩, ⟨0, 0, 0, 0⟩] else [])

/-! ## Loop invariant of the in-place conversion -/

/-- Invariant of the in-place copy after `i` pixels: the pointers stand at
`o + 3 i` and `o + 4 i`, the buffer has kept its length, everything from the
write position on is still the original, and the `i` pixels written hold the
first three bytes of the original pixels. -/
def CopyInv (orig : List Nat) (o i : Nat) (c : Cursor) : Prop :=
  c.p = o + 3 * i ∧ c.n = o + 4 * i ∧ c.buf.length = orig.length
  ∧ (∀ idx, o + 3 * i ≤ idx → c.buf[idx]? = orig[idx]?)
  ∧ (∀ j k, j < i → k < 3 → c.buf[o + 3 * j + k]? = orig[o + 4 * j + k]?)

/-! ## Concrete inputs used below -/

/-- A session state with nothing recorded yet. -/
def idleSession : AdbExecObject :=
  { osType := OsType.ANDROID_JB, lcdBrightness := 0, keyInfos := [], posPress := ⟨0, 0⟩,
    reads := 0, emitted := [] }

/-- A device that lists two input devices, `gpio-keys` and `qwerty`, whose key
layouts both define only a volume key, and whose backlight always reads 0. -/
def twoDevicesNoPowerKey : Device :=
  { inputNameList := ⟨0, "gpio-keys\nqwerty\n".toList⟩
    keyLayout := fun _ => ⟨0, "key 115 VOLUME_UP\n".toList⟩
    backlight := fun _ => ⟨0, "0\n".toList⟩ }

/-- A device whose key layouts hold the one line given, and whose backlight
always reads 0. -/
def deviceWithLayout (layout : String) : Device :=
  { inputNameList := ⟨0, "gpio-keys\n".toList⟩
    keyLayout := fun _ => ⟨0, layout.toList⟩
    backlight := fun _ => ⟨0, "0\n".toList⟩ }

/-- A session with two power-key candidates found by an earlier discovery and
the screen known to be off. -/
def twoCandidates : AdbExecObject :=
  { idleSession with
    keyInfos := [⟨"gpio-keys", 0, 116, true⟩, ⟨"qwerty", 1, 116, true⟩] }

/-- A session with one power-key candidate whose stored brightness is still
the 100 that `probeDevicePowerKey` forces before its wake-up. -/
def oneCandidateStale : AdbExecObject :=
  { idleSession with lcdBrightness := 100, keyInfos := [⟨"gpio-keys", 0, 116, true⟩] }

/-- A capture of a 2x1 RGBX8888 screen: the 12 header bytes, then the pixels
(10,20,30,99) and (40,50,60,1). -/
def capture2x1 : List Nat := [0, 0, 0, 2, 0, 0, 0, 1, 0, 0, 0, 1, 10, 20, 30, 99, 40, 50, 60, 1]

/-- A frame decoder holding a 2x1 RGBX8888 geometry and the capture `bytes`. -/
def decoder2x1 (bytes : List Nat) : FBEx :=
  { delay := 0, connected := true, wakes := 0, fb_width := 2, fb_height := 1, fb_format := 1,
    bpp := 4, bytes := bytes, out := [], emitted := [] }

/-! ## Theorems: the delay controller -/

/-- C9 (evaluation at the failing input): with a step of at least 2 and the
delay one below `DELAY_MAX`, `increaseDelay` returns and stores
`DELAY_MAX - 1 + DELAY_STEP`, which is above the maximum: the guard
`delay < DELAY_MAX` is followed by an uncapped addition. -/
theorem increaseDelay_exceeds_max (DELAY_MAX : Int) (k : Nat) (s : ADB) :
    (ADB.increaseDelay DELAY_MAX (k + 2) { s with delay := DELAY_MAX - 1 }).1 = DELAY_MAX + 1 + k
    ∧ (ADB.increaseDelay DELAY_MAX (k + 2) { s with delay := DELAY_MAX - 1 }).2.delay
        = DELAY_MAX + 1 + k
    ∧ ¬ (ADB.increaseDelay DELAY_MAX (k + 2) { s with delay := DELAY_MAX - 1 }).1 ≤ DELAY_MAX := by
  simp [ADB.increaseDelay]
  omega

/-- What `increaseDelay` does guarantee: from a delay within the maximum the
result stays below `DELAY_MAX + DELAY_STEP`, and a delay already at or above
the maximum is left as it is. -/
theorem increaseDelay_bound (DELAY_MAX DELAY_STEP : Int) (s : ADB) (hstep : 0 < DELAY_STEP)
    (hd : s.delay ≤ DELAY_MAX) :
    (ADB.increaseDelay DELAY_MAX DELAY_STEP s).1 < DELAY_MAX + DELAY_STEP
    ∧ (ADB.increaseDelay DELAY_MAX DELAY_STEP s).2.delay
        = (ADB.increaseDelay DELAY_MAX DELAY_STEP s).1
    ∧ (DELAY_MAX ≤ s.delay → (ADB.increaseDelay DELAY_MAX DELAY_STEP s).1 = s.delay) := by
  unfold ADB.increaseDelay
  dsimp only
  split_ifs with hlt
  · exact ⟨by show s.delay + DELAY_STEP < DELAY_MAX + DELAY_STEP; omega, rfl,
      fun hge => absurd hlt (by omega)⟩
  · exact ⟨by omega, rfl, fun _ => rfl⟩

/-- C10 (counterexample): two calls of `setDelay(5)` do not leave the state of
one call: the second call wakes the waiters once more. -/
theorem setDelay_twice_ne_once :
    ADB.setDelay (ADB.setDelay ⟨0, false, 0⟩ 5) 5 ≠ ADB.setDelay ⟨0, false, 0⟩ 5 := by
  decide

/-- C10 (amended): calling `setDelay d` twice leaves the same delay (and
connectivity) as calling it once, and the second call issues exactly one more
wake-up: every call wakes the waiters, whether or not the delay changes. -/
theorem setDelay_twice_delay_and_wakes (s : ADB) (d : Int) :
    ((s.setDelay d).setDelay d).delay = (s.setDelay d).delay
    ∧ ((s.setDelay d).setDelay d).delay = d
    ∧ ((s.setDelay d).setDelay d).connected = (s.setDelay d).connected
    ∧ ((s.setDelay d).setDelay d).wakes = (s.setDelay d).wakes + 1
    ∧ (s.setDelay d).wakes = s.wakes + 1 := by
  simp [ADB.setDelay]

/-! ## Theorems: the capture header -/

theorem getScreenInfo_of_pos (le : Bool) (pf : PixelFormats) (s : FBEx) (bytes : List Nat)
    (hw : 0 < bigEndianToInt32 le (mid bytes 0 4)) (hh : 0 < bigEndianToInt32 le (mid bytes 4 4))
    (r : Int × FBEx) (hr : FBEx.getScreenInfo le pf s bytes = r) :
    r.2.fb_width = bigEndianToInt32 le (mid bytes 0 4)
    ∧ r.2.fb_height = bigEndianToInt32 le (mid bytes 4 4)
    ∧ r.2.fb_format = bigEndianToInt32 le (mid bytes 8 4)
    ∧ (r.1 = 0 ↔ (bigEndianToInt32 le (mid bytes 8 4) = pf.PIXEL_FORMAT_RGBX_565
        ∨ bigEndianToInt32 le (mid bytes 8 4) = pf.PIXEL_FORMAT_RGB_888
        ∨ bigEndianToInt32 le (mid bytes 8 4) = pf.PIXEL_FORMAT_RGBX_8888)) := by
  have hpos : ¬ (bigEndianToInt32 le (mid bytes 0 4) ≤ 0
      ∨ bigEndianToInt32 le (mid bytes 4 4) ≤ 0) := by
    omega
  unfold FBEx.getScreenInfo at hr
  dsimp only at hr
  rw [if_neg hpos] at hr
  split_ifs at hr <;> subst hr <;> simp [*]

theorem bigEndianToInt32_encodeBE32 (v : Int) (h1 : -2147483648 ≤ v) (h2 : v < 2147483648) :
    bigEndianToInt32 false (encodeBE32 v) = v := by
  simp only [bigEndianToInt32, encodeBE32, byteAt, toInt32, List.getD_cons_zero,
    List.getD_cons_succ, Bool.false_eq_true, if_false]
  push_cast
  have e0 : ((v % 256).toNat : Int) = v % 256 := Int.toNat_of_nonneg (by omega)
  have e1 : ((v / 256 % 256).toNat : Int) = v / 256 % 256 := Int.toNat_of_nonneg (by omega)
  have e2 : ((v / 65536 % 256).toNat : Int) = v / 65536 % 256 := Int.toNat_of_nonneg (by omega)
  have e3 : ((v / 16777216 % 256).toNat : Int) = v / 16777216 % 256 :=
    Int.toNat_of_nonneg (by omega)
  simp only [Int.natCast_mod, e0, e1, e2, e3]
  split_ifs <;> omega

/-- On a host that stores integers most significant byte first, the header
round-trips: `getScreenInfo` succeeds and stores the width, height and format
whose big-endian encodings head the buffer. -/
theorem getScreenInfo_bigEndianHost (pf : PixelFormats) (s : FBEx) (w h f : Int)
    (payload : List Nat) (hw : 0 < w) (hw2 : w < 2147483648) (hh : 0 < h) (hh2 : h < 2147483648)
    (hf : f = pf.PIXEL_FORMAT_RGBX_565 ∨ f = pf.PIXEL_FORMAT_RGB_888
      ∨ f = pf.PIXEL_FORMAT_RGBX_8888)
    (hf1 : -2147483648 ≤ f) (hf2 : f < 2147483648) :
    (FBEx.getScreenInfo false pf s (encodeBE32 w ++ encodeBE32 h ++ encodeBE32 f ++ payload)).1 = 0
    ∧ (FBEx.getScreenInfo false pf s
        (encodeBE32 w ++ encodeBE32 h ++ encodeBE32 f ++ payload)).2.fb_width = w
    ∧ (FBEx.getScreenInfo false pf s
        (encodeBE32 w ++ encodeBE32 h ++ encodeBE32 f ++ payload)).2.fb_height = h
    ∧ (FBEx.getScreenInfo false pf s
        (encodeBE32 w ++ encodeBE32 h ++ encodeBE32 f ++ payload)).2.fb_format = f := by
  have m0 : mid (encodeBE32 w ++ encodeBE32 h ++ encodeBE32 f ++ payload) 0 4 = encodeBE32 w := by
    simp [mid, encodeBE32]
  have m4 : mid (encodeBE32 w ++ encodeBE32 h ++ encodeBE32 f ++ payload) 4 4 = encodeBE32 h := by
    simp [mid, encodeBE32]
  have m8 : mid (encodeBE32 w ++ encodeBE32 h ++ encodeBE32 f ++ payload) 8 4 = encodeBE32 f := by
    simp [mid, encodeBE32]
  have vw := bigEndianToInt32_encodeBE32 w (by omega) hw2
  have vh := bigEndianToInt32_encodeBE32 h (by omega) hh2
  have vf := bigEndianToInt32_encodeBE32 f hf1 hf2
  have key := getScreenInfo_of_pos false pf s
    (encodeBE32 w ++ encodeBE32 h ++ encodeBE32 f ++ payload)
    (by rw [m0, vw]; exact hw) (by rw [m4, vh]; exact hh) _ rfl
  rw [m0, m4, m8, vw, vh, vf] at key
  exact ⟨key.2.2.2.mpr hf, key.1, key.2.1, key.2.2.1⟩

/-- C1 (evaluation at the failing input): on a little-endian host, a header
holding the big-endian encodings of width 1 and height 1 (and of any format
code) makes `getScreenInfo` store width 16777216 and height 16777216: `bcopy`
places the four bytes in memory order, so the most significant byte of the
wire value becomes the least significant byte of the stored one. -/
theorem getScreenInfo_littleEndianHost_misreads (pf : PixelFormats) (s : FBEx) (f : Int)
    (payload : List Nat) :
    (FBEx.getScreenInfo true pf s
        (encodeBE32 1 ++ encodeBE32 1 ++ encodeBE32 f ++ payload)).2.fb_width = 16777216
    ∧ (FBEx.getScreenInfo true pf s
        (encodeBE32 1 ++ encodeBE32 1 ++ encodeBE32 f ++ payload)).2.fb_height = 16777216 := by
  have h1 : encodeBE32 1 = [0, 0, 0, 1] := by decide
  have hw : mid (encodeBE32 1 ++ encodeBE32 1 ++ encodeBE32 f ++ payload) 0 4 = [0, 0, 0, 1] := by
    simp [h1, mid]
  have hh : mid (encodeBE32 1 ++ encodeBE32 1 ++ encodeBE32 f ++ payload) 4 4 = [0, 0, 0, 1] := by
    simp [h1, mid]
  have hv : bigEndianToInt32 true [0, 0, 0, 1] = 16777216 := by decide
  have key := getScreenInfo_of_pos true pf s
    (encodeBE32 1 ++ encodeBE32 1 ++ encodeBE32 f ++ payload)
    (by rw [hw, hv]; omega) (by rw [hh, hv]; omega) _ rfl
  rw [hw, hh, hv] at key
  exact ⟨key.1, key.2.1⟩

/-! ## Theorems: the RGBX8888 to RGB888 conversion -/

theorem some_getD_of_lt (l : List Nat) (m : Nat) (h : m < l.length) :
    l[m]? = some (l.getD m 0) := by
  rw [List.getD_eq_getElem?_getD, List.getElem?_eq_getElem h]
  rfl

/-- One pixel of the in-place copy: when the `i` pixels before it are done and
the buffer from the write position on is still the original, the same holds
for `i + 1`. -/
theorem pixel_invariant (orig : List Nat) (o i : Nat) (c : Cursor)
    (hp : c.p = o + 3 * i) (hn : c.n = o + 4 * i) (hl : c.buf.length = orig.length)
    (hrest : ∀ idx, o + 3 * i ≤ idx → c.buf[idx]? = orig[idx]?)
    (hdone : ∀ j k, j < i → k < 3 → c.buf[o + 3 * j + k]? = orig[o + 4 * j + k]?)
    (hb : o + 4 * (i + 1) ≤ orig.length) :
    c.pixel.p = o + 3 * (i + 1) ∧ c.pixel.n = o + 4 * (i + 1)
    ∧ c.pixel.buf.length = orig.length
    ∧ (∀ idx, o + 3 * (i + 1) ≤ idx → c.pixel.buf[idx]? = orig[idx]?)
    ∧ (∀ j k, j < i + 1 → k < 3 → c.pixel.buf[o + 3 * j + k]? = orig[o + 4 * j + k]?) := by
  obtain ⟨buf, p, n⟩ := c
  simp only at hp hn hl hrest hdone
  subst hp hn
  have r0 : buf.getD (o + 4 * i) 0 = orig.getD (o + 4 * i) 0 := by
    rw [List.getD_eq_getElem?_getD, List.getD_eq_getElem?_getD, hrest _ (by omega)]
  have r1 : (buf.set (o + 3 * i) (orig.getD (o + 4 * i) 0)).getD (o + 4 * i + 1) 0
      = orig.getD (o + 4 * i + 1) 0 := by
    simp only [List.getD_eq_getElem?_getD]
    rw [List.getElem?_set_ne (by omega), hrest _ (by omega)]
  have r2 : ((buf.set (o + 3 * i) (orig.getD (o + 4 * i) 0)).set (o + 3 * i + 1)
      (orig.getD (o + 4 * i + 1) 0)).getD (o + 4 * i + 2) 0 = orig.getD (o + 4 * i + 2) 0 := by
    simp only [List.getD_eq_getElem?_getD]
    rw [List.getElem?_set_ne (by omega), List.getElem?_set_ne (by omega), hrest _ (by omega)]
  have hbuf : (Cursor.pixel ⟨buf, o + 3 * i, o + 4 * i⟩).buf
      = ((buf.set (o + 3 * i) (orig.getD (o + 4 * i) 0)).set (o + 3 * i + 1)
          (orig.getD (o + 4 * i + 1) 0)).set (o + 3 * i + 2) (orig.getD (o + 4 * i + 2) 0) := by
    simp only [Cursor.pixel, Cursor.copyByte, Cursor.skipByte, r0, r1, r2]
  refine ⟨?_, ?_, ?_, ?_, ?_⟩
  · simp only [Cursor.pixel, Cursor.copyByte, Cursor.skipByte]; omega
  · simp only [Cursor.pixel, Cursor.copyByte, Cursor.skipByte]; omega
  · rw [hbuf]; simp [hl]
  · intro idx hidx
    rw [hbuf, List.getElem?_set_ne (by omega), List.getElem?_set_ne (by omega),
      List.getElem?_set_ne (by omega)]
    exact hrest idx (by omega)
  · intro j k hj hk
    rw [hbuf]
    by_cases hji : j < i
    · rw [List.getElem?_set_ne (by omega), List.getElem?_set_ne (by omega),
        List.getElem?_set_ne (by omega)]
      exact hdone j k hji hk
    · have hje : j = i := by omega
      subst hje
      have hk3 : k = 0 ∨ k = 1 ∨ k = 2 := by omega
      rcases hk3 with rfl | rfl | rfl
      · simp only [Nat.add_zero]
        rw [List.getElem?_set_ne (by omega), List.getElem?_set_ne (by omega),
          List.getElem?_set_self (by omega)]
        exact (some_getD_of_lt orig _ (by omega)).symm
      · rw [List.getElem?_set_ne (by omega), List.getElem?_set_self (by simp; omega)]
        exact (some_getD_of_lt orig _ (by omega)).symm
      · rw [List.getElem?_set_self (by simp; omega)]
        exact (some_getD_of_lt orig _ (by omega)).symm


theorem rowLoop_invariant (orig : List Nat) (o : Nat) :
    ∀ (k i : Nat) (c : Cursor), CopyInv orig o i c → o + 4 * (i + k) ≤ orig.length →
      CopyInv orig o (i + k) (rowLoop k c)
  | 0, _, _, h, _ => h
  | k + 1, i, c, h, hb => by
    obtain ⟨hp, hn, hl, hrest, hdone⟩ := h
    have hstep : CopyInv orig o (i + 1) c.pixel :=
      pixel_invariant orig o i c hp hn hl hrest hdone (by omega)
    have := rowLoop_invariant orig o k (i + 1) c.pixel hstep (by omega)
    rw [show i + (k + 1) = i + 1 + k by omega]
    exact this

theorem frameLoop_invariant (orig : List Nat) (o width : Nat) :
    ∀ (rows i : Nat) (c : Cursor), CopyInv orig o i c →
      o + 4 * (i + rows * width) ≤ orig.length →
      CopyInv orig o (i + rows * width) (frameLoop width rows c)
  | 0, i, c, h, _ => by simpa using h
  | rows + 1, i, c, h, hb => by
    have hmul : (rows + 1) * width = width + rows * width := by ring
    have hrow : CopyInv orig o (i + width) (rowLoop width c) :=
      rowLoop_invariant orig o width i c h (by rw [hmul] at hb; omega)
    have := frameLoop_invariant orig o width rows (i + width) (rowLoop width c) hrow
      (by rw [hmul] at hb; omega)
    rw [hmul, show i + (width + rows * width) = i + width + rows * width by omega]
    exact this

theorem dropFourth_length (payload : List Nat) : ∀ count, (dropFourth payload count).length = 3 * count
  | 0 => rfl
  | k + 1 => by simp [dropFourth, dropFourth_length payload k]; omega

theorem dropFourth_getElem? (payload : List Nat) :
    ∀ count i k, i < count → k < 3 →
      (dropFourth payload count)[3 * i + k]? = some (payload.getD (4 * i + k) 0)
  | 0, _, _, h, _ => by omega
  | c + 1, i, k, hi, hk => by
    unfold dropFourth
    by_cases hic : i < c
    · rw [List.getElem?_append_left (by rw [dropFourth_length]; omega)]
      exact dropFourth_getElem? payload c i k hic hk
    · have hie : i = c := by omega
      subst hie
      rw [List.getElem?_append_right (by rw [dropFourth_length]; omega), dropFourth_length]
      have hk3 : k = 0 ∨ k = 1 ∨ k = 2 := by omega
      rcases hk3 with rfl | rfl | rfl <;> simp


theorem frameLoop_copyInv (bytes : List Nat) (o W H : Nat)
    (hb : o + 4 * (W * H) ≤ bytes.length) :
    CopyInv bytes o (W * H) (frameLoop W H { buf := bytes, p := o, n := o }) := by
  have h0 : CopyInv bytes o 0 { buf := bytes, p := o, n := o } :=
    ⟨rfl, rfl, rfl, fun _ _ => rfl, fun j k hj _ => absurd hj (Nat.not_lt_zero j)⟩
  have := frameLoop_invariant bytes o W H 0 _ h0 (by rw [Nat.mul_comm H W]; omega)
  rw [Nat.zero_add, Nat.mul_comm H W] at this
  exact this

theorem toInt32_of_small (v : Int) (h0 : 0 ≤ v) (h1 : v < 2147483648) : toInt32 v = v := by
  unfold toInt32
  split_ifs <;> omega

/-- C2: for width, height at least 0 and a buffer (of a length an `int` can
hold) with at least `4 * width * height` bytes from `offset` on,
`convertRGBAtoRGB888` returns `width * height * 3`, keeps the length of the
buffer, and leaves at `offset + 3 i + k` the original byte of
`offset + 4 i + k` for every pixel `i` and channel `k < 3`; so the frame cut
out as `mid offset (width * height * 3)` is the pixels in order, each without
its fourth byte. -/
theorem convertRGBAtoRGB888_drops_fourth_byte (s : FBEx) (bytes : List Nat) (o : Nat)
    (hw : 0 ≤ s.fb_width) (hh : 0 ≤ s.fb_height)
    (hlen : (o : Int) + 4 * (s.fb_width * s.fb_height) ≤ bytes.length)
    (hsize : bytes.length < 2147483648) :
    (s.convertRGBAtoRGB888 bytes o).2 = s.fb_width * s.fb_height * 3
    ∧ (s.convertRGBAtoRGB888 bytes o).1.length = bytes.length
    ∧ (∀ i k : Nat, (i : Int) < s.fb_width * s.fb_height → k < 3 →
        (s.convertRGBAtoRGB888 bytes o).1[o + 3 * i + k]? = bytes[o + 4 * i + k]?)
    ∧ mid (s.convertRGBAtoRGB888 bytes o).1 o (s.convertRGBAtoRGB888 bytes o).2
        = dropFourth (bytes.drop o) (s.fb_width * s.fb_height).toNat := by
  obtain ⟨W, hW⟩ := Int.eq_ofNat_of_zero_le hw
  obtain ⟨H, hH⟩ := Int.eq_ofNat_of_zero_le hh
  have hP : s.fb_width * s.fb_height = ((W * H : Nat) : Int) := by rw [hW, hH]; push_cast; rfl
  rw [hP] at hlen
  have hb : o + 4 * (W * H) ≤ bytes.length := by exact_mod_cast hlen
  obtain ⟨_, _, hl, _, hdone⟩ := frameLoop_copyInv bytes o W H hb
  have hret : (s.convertRGBAtoRGB888 bytes o).2 = ((3 * (W * H) : Nat) : Int) := by
    show toInt32 (s.fb_width * s.fb_height * 3) = _
    rw [hP, toInt32_of_small _ (by positivity) (by omega)]
    push_cast; ring
  have hbuf : (s.convertRGBAtoRGB888 bytes o).1
      = (frameLoop W H { buf := bytes, p := o, n := o }).buf := by
    show (frameLoop s.fb_width.toNat s.fb_height.toNat _).buf = _
    rw [hW, hH, Int.toNat_ofNat, Int.toNat_ofNat]
  refine ⟨?_, ?_, ?_, ?_⟩
  · rw [hret, hP]; push_cast; ring
  · rw [hbuf]; exact hl
  · intro i k hi hk
    rw [hbuf]
    exact hdone i k (by rw [hP] at hi; exact_mod_cast hi) hk
  · rw [hret, hbuf, hP, Int.toNat_ofNat]
    unfold mid
    rw [if_neg (by omega), Int.toNat_ofNat]
    apply List.ext_getElem?
    intro idx
    rw [List.getElem?_take]
    by_cases hidx : idx < 3 * (W * H)
    · rw [if_pos hidx, List.getElem?_drop]
      have hsplit : idx = 3 * (idx / 3) + idx % 3 := by omega
      have hi : idx / 3 < W * H := by omega
      have hk : idx % 3 < 3 := by omega
      rw [hsplit, dropFourth_getElem? _ _ _ _ hi hk, ← Nat.add_assoc, hdone _ _ hi hk,
        List.getD_eq_getElem?_getD, List.getElem?_drop, ← Nat.add_assoc,
        some_getD_of_lt bytes _ (by omega), List.getD_eq_getElem?_getD]
      rfl
    · rw [if_neg hidx]
      exact (List.getElem?_eq_none (by rw [dropFourth_length]; omega)).symm

/-- C2 (witness): the 2x1 capture with pixels (10,20,30,99), (40,50,60,1)
meets the hypotheses at offset 12, and `sendNewFB` hands out exactly
`[10, 20, 30, 40, 50, 60]`. -/
theorem convertRGBAtoRGB888_drops_fourth_byte_witness :
    ((decoder2x1 capture2x1).convertRGBAtoRGB888 capture2x1 12).2
        = (decoder2x1 capture2x1).fb_width * (decoder2x1 capture2x1).fb_height * 3
    ∧ ((decoder2x1 capture2x1).convertRGBAtoRGB888 capture2x1 12).1.length = capture2x1.length
    ∧ (∀ i k : Nat, (i : Int) < (decoder2x1 capture2x1).fb_width * (decoder2x1 capture2x1).fb_height →
        k < 3 →
        ((decoder2x1 capture2x1).convertRGBAtoRGB888 capture2x1 12).1[12 + 3 * i + k]?
          = capture2x1[12 + 4 * i + k]?)
    ∧ mid ((decoder2x1 capture2x1).convertRGBAtoRGB888 capture2x1 12).1 12
          ((decoder2x1 capture2x1).convertRGBAtoRGB888 capture2x1 12).2
        = dropFourth (capture2x1.drop 12)
            ((decoder2x1 capture2x1).fb_width * (decoder2x1 capture2x1).fb_height).toNat
    ∧ dropFourth (capture2x1.drop 12) 2 = [10, 20, 30, 40, 50, 60]
    ∧ ((decoder2x1 capture2x1).sendNewFB ⟨4, 3, 1⟩).out = [10, 20, 30, 40, 50, 60]
    ∧ ((decoder2x1 capture2x1).sendNewFB ⟨4, 3, 1⟩).emitted
        = [FBSignal.newFrame [10, 20, 30, 40, 50, 60]] := by
  have h := convertRGBAtoRGB888_drops_fourth_byte (decoder2x1 capture2x1) capture2x1 12
    (by decide) (by decide) (by decide) (by decide)
  exact ⟨h.1, h.2.1, h.2.2.1, h.2.2.2, by decide, by decide, by decide⟩

theorem sendNewFB_rgbx_out (pf : PixelFormats) (s : FBEx)
    (hlen : ¬ (s.bytes.length : Int) < s.length) (hf : s.fb_format = pf.PIXEL_FORMAT_RGBX_8888) :
    (s.sendNewFB pf).out
      = mid (s.convertRGBAtoRGB888 s.bytes FB_DATA_OFFSET).1 FB_DATA_OFFSET
          (s.convertRGBAtoRGB888 s.bytes FB_DATA_OFFSET).2
    ∧ (s.sendNewFB pf).emitted = s.emitted ++ [FBSignal.newFrame (s.sendNewFB pf).out] := by
  unfold FBEx.sendNewFB
  rw [if_neg hlen, if_pos hf]
  exact ⟨rfl, rfl⟩

/-! ## Theorems: the capture length check -/

/-- C3: whatever geometry and pixel format are stored, when the capture
buffer is shorter than 12 + fb_width * fb_height * bpp, `sendNewFB` leaves the
session disconnected, leaves the buffer and the last frame as they were (no
conversion), and emits nothing but `deviceDisconnected` (and that only when
the session was connected): no frame is emitted. -/
theorem sendNewFB_short_capture_disconnects (pf : PixelFormats) (s : FBEx)
    (h : (s.bytes.length : Int) < 12 + s.fb_width * s.fb_height * s.bpp) :
    (s.sendNewFB pf).connected = false
    ∧ (s.sendNewFB pf).bytes = s.bytes
    ∧ (s.sendNewFB pf).out = s.out
    ∧ (s.sendNewFB pf).emitted
        = s.emitted ++ (if s.connected then [FBSignal.deviceDisconnected] else [])
    ∧ (∀ frame, FBSignal.newFrame frame ∈ (s.sendNewFB pf).emitted →
        FBSignal.newFrame frame ∈ s.emitted) := by
  have h2 : (s.bytes.length : Int) < s.length := by simpa [FBEx.length, FB_DATA_OFFSET] using h
  simp only [FBEx.sendNewFB, h2, if_true]
  cases hc : s.connected <;> simp [FBEx.setConnected, ADB.isConnected, ADB.setConnected, hc]

/-- C3 (witness): a connected 2x1 RGBX8888 decoder given only 16 of the 20
bytes of the capture, under RGBX8888 = 1. -/
theorem sendNewFB_short_capture_disconnects_witness :
    ((decoder2x1 (capture2x1.take 16)).sendNewFB ⟨4, 3, 1⟩).connected = false
    ∧ ((decoder2x1 (capture2x1.take 16)).sendNewFB ⟨4, 3, 1⟩).bytes
        = (decoder2x1 (capture2x1.take 16)).bytes
    ∧ ((decoder2x1 (capture2x1.take 16)).sendNewFB ⟨4, 3, 1⟩).out
        = (decoder2x1 (capture2x1.take 16)).out
    ∧ ((decoder2x1 (capture2x1.take 16)).sendNewFB ⟨4, 3, 1⟩).emitted
        = (decoder2x1 (capture2x1.take 16)).emitted
          ++ (if (decoder2x1 (capture2x1.take 16)).connected then [FBSignal.deviceDisconnected]
              else [])
    ∧ (∀ frame, FBSignal.newFrame frame
          ∈ ((decoder2x1 (capture2x1.take 16)).sendNewFB ⟨4, 3, 1⟩).emitted →
        FBSignal.newFrame frame ∈ (decoder2x1 (capture2x1.take 16)).emitted) :=
  sendNewFB_short_capture_disconnects ⟨4, 3, 1⟩ (decoder2x1 (capture2x1.take 16)) (by decide)

/-! ## Theorems: input synthesis -/

/-- The command `sendTap` emits on release after a press at `p`: a tap at the
release position exactly when the release lies 0 or 1 to the left of and 0 or
1 above the press position, and a swipe from `p` otherwise. -/
theorem sendTap_release_command (s : AdbExecObject) (p r : QPoint) :
    ((s.sendTap p true).sendTap r false).emitted = s.emitted ++
      [AdbSignal.newCommand
        (if (-1 ≤ r.x - p.x ∧ r.x - p.x ≤ 0) ∧ (-1 ≤ r.y - p.y ∧ r.y - p.y ≤ 0)
         then ["shell", "input tap", number r.x, number r.y]
         else ["shell", "input swipe", number p.x, number p.y, number r.x, number r.y])] := by
  simp only [AdbExecObject.sendTap, AdbExecObject.emit, QRect.contains, QRect.ofSize,
    QRect.isNull]
  simp
  split_ifs <;> rfl

/-- C4 (evaluation at the failing input): press at (100,100) and release at
(100,101) emits a swipe from (100,100) to (100,101), not a tap: the rectangle
`QRect(-1, -1, 2, 2)` spans -1..0 in each axis, so a release one unit to the
right of or below the press is outside it. -/
theorem sendTap_release_one_below_is_swipe :
    ((idleSession.sendTap ⟨100, 100⟩ true).sendTap ⟨100, 101⟩ false).emitted
      = [AdbSignal.newCommand ["shell", "input swipe", "100", "100", "100", "101"]]
    ∧ ((idleSession.sendTap ⟨100, 100⟩ true).sendTap ⟨100, 99⟩ false).emitted
      = [AdbSignal.newCommand ["shell", "input tap", "100", "99"]]
    ∧ ((idleSession.sendTap ⟨100, 100⟩ true).sendTap ⟨100, 140⟩ false).emitted
      = [AdbSignal.newCommand ["shell", "input swipe", "100", "100", "100", "140"]] := by
  decide

/-- C8: for every position and flags, `sendEvent` emits one command: "shell"
followed by the words of the raw events (3,0x35,x), (3,0x36,y), touch-down
(1,0x14a,1) iff press, (3,0,x), (3,1,y), sync (0,0,0), and touch-up
(1,0x14a,0) with a second sync iff release; every event targets device
index 0. -/
theorem sendEvent_legacy_sequence (s : AdbExecObject) (pos : QPoint) (press release : Bool) :
    (s.sendEvent pos press release).emitted = s.emitted ++
      [AdbSignal.newCommand ("shell" :: (legacyEvents pos press release).flatMap RawEvent.words)]
    ∧ (∀ e ∈ legacyEvents pos press release, e.deviceIdx = 0)
    ∧ ({ s with osType := OsType.ANDROID_ICS }.sendVirtualClick pos press release).emitted
        = s.emitted ++
          [AdbSignal.newCommand
            ("shell" :: (legacyEvents pos press release).flatMap RawEvent.words)] := by
  have h0 : "/dev/input/event" ++ toString 0 = "/dev/input/event0" := by decide
  refine ⟨?_, ?_, ?_⟩
  · cases press <;> cases release <;>
      simp [AdbExecObject.sendEvent, AdbExecObject.emit, legacyEvents, RawEvent.words,
        newEventCmd, List.flatMap, h0]
  · cases press <;> cases release <;> simp [legacyEvents]
  · cases press <;> cases release <;>
      simp [AdbExecObject.sendVirtualClick, AdbExecObject.sendEvent, AdbExecObject.emit,
        legacyEvents, RawEvent.words, newEventCmd, List.flatMap, h0]

/-! ## Theorems: power key discovery and wake-up -/

theorem removeLoop_fuel (drop : DeviceKeyInfo → Bool) (extra : Nat) :
    ∀ (fuel i : Nat) (keyInfos : List DeviceKeyInfo), keyInfos.length ≤ i + fuel →
      removeLoop drop (fuel + extra) i keyInfos = removeLoop drop fuel i keyInfos
  | 0, i, keyInfos, h => by
    have hnone : keyInfos[i]? = none := List.getElem?_eq_none (by omega)
    cases extra with
    | zero => rfl
    | succ e => simp [removeLoop, hnone]
  | fuel + 1, i, keyInfos, h => by
    rw [show fuel + 1 + extra = (fuel + extra) + 1 by omega]
    unfold removeLoop
    cases hget : keyInfos[i]? with
    | none => rfl
    | some info =>
      have hlt : i < keyInfos.length := by
        by_contra hge
        rw [List.getElem?_eq_none (by omega)] at hget
        cases hget
      have hlen : (keyInfos.eraseIdx i).length ≤ (i + 1) + fuel := by
        rw [List.length_eraseIdx, if_pos hlt]; omega
      simp only []
      rw [removeLoop_fuel drop extra fuel (i + 1) _ hlen,
        removeLoop_fuel drop extra fuel (i + 1) keyInfos (by omega)]

theorem layoutLoop_fuel (dev : Device) (ignoreComment : Bool) (extra : Nat) :
    ∀ (fuel i : Nat) (code : Int) (keyInfos : List DeviceKeyInfo), keyInfos.length ≤ i + fuel →
      layoutLoop dev ignoreComment (fuel + extra) i code keyInfos
        = layoutLoop dev ignoreComment fuel i code keyInfos
  | 0, i, code, keyInfos, h => by
    have hnone : keyInfos[i]? = none := List.getElem?_eq_none (by omega)
    cases extra with
    | zero => rfl
    | succ e => simp [layoutLoop, hnone]
  | fuel + 1, i, code, keyInfos, h => by
    rw [show fuel + 1 + extra = (fuel + extra) + 1 by omega]
    unfold layoutLoop
    cases hget : keyInfos[i]? with
    | none => rfl
    | some info =>
      simp only []
      rw [layoutLoop_fuel dev ignoreComment extra fuel (i + 1) _ _ (by rw [List.length_set]; omega),
        layoutLoop_fuel dev ignoreComment extra fuel (i + 1) _ keyInfos (by omega)]


theorem getDeviceLCDBrightness_keyInfos (dev : Device) (s : AdbExecObject) :
    (s.getDeviceLCDBrightness dev).2.keyInfos = s.keyInfos := by
  unfold AdbExecObject.getDeviceLCDBrightness
  dsimp only
  split_ifs <;> rfl

theorem pollLoop_keyInfos (dev : Device) :
    ∀ (cnt : Nat) (s : AdbExecObject), (pollLoop dev cnt s).keyInfos = s.keyInfos
  | 0, _ => rfl
  | cnt + 1, s => by
    unfold pollLoop
    dsimp only
    split_ifs
    · exact getDeviceLCDBrightness_keyInfos dev s
    · rw [pollLoop_keyInfos dev cnt, getDeviceLCDBrightness_keyInfos]

theorem wakeLoop_fuel (dev : Device) (extra : Nat) :
    ∀ (fuel i : Nat) (s : AdbExecObject), s.keyInfos.length ≤ i + fuel →
      wakeLoop dev (fuel + extra) i s = wakeLoop dev fuel i s
  | 0, i, s, h => by
    have hnone : s.keyInfos[i]? = none := List.getElem?_eq_none (by omega)
    cases extra with
    | zero => rfl
    | succ e => simp [wakeLoop, hnone]
  | fuel + 1, i, s, h => by
    rw [show fuel + 1 + extra = (fuel + extra) + 1 by omega]
    unfold wakeLoop
    cases hget : s.keyInfos[i]? with
    | none => rfl
    | some info =>
      have hk : (pollLoop dev 5 (s.sendPowerKey info.eventDeviceIdx info.powerKeycode)).keyInfos
          = s.keyInfos := by
        rw [pollLoop_keyInfos]; rfl
      simp only []
      rw [wakeLoop_fuel dev extra fuel (i + 1) _ (by simp only [List.length_set, hk]; omega),
        wakeLoop_fuel dev extra fuel (i + 1) _ (by rw [hk]; omega)]



theorem removeLoop_cons_succ (drop : DeviceKeyInfo → Bool) (x : DeviceKeyInfo) :
    ∀ (fuel i : Nat) (keyInfos : List DeviceKeyInfo),
      removeLoop drop fuel (i + 1) (x :: keyInfos) = x :: removeLoop drop fuel i keyInfos
  | 0, _, _ => rfl
  | fuel + 1, i, keyInfos => by
    unfold removeLoop
    rw [List.getElem?_cons_succ]
    cases hget : keyInfos[i]? with
    | none => rfl
    | some info =>
      simp only [List.eraseIdx_cons_succ]
      rw [removeLoop_cons_succ drop x fuel (i + 1) _, removeLoop_cons_succ drop x fuel (i + 1) _]
      split_ifs <;> rfl

/-- The removal loop never examines the entry that follows a removed one:
when the first entry is dropped, the second stays whatever it is. -/
theorem removeLoop_skips_next (drop : DeviceKeyInfo → Bool) (a b : DeviceKeyInfo)
    (rest : List DeviceKeyInfo) (ha : drop a = true) :
    removeLoop drop (a :: b :: rest).length 0 (a :: b :: rest)
      = b :: removeLoop drop (rest.length + 1) 0 rest := by
  show removeLoop drop (rest.length + 1 + 1) 0 (a :: b :: rest) = _
  rw [removeLoop]
  simp only [List.getElem?_cons_zero, ha, if_true, List.eraseIdx_cons_zero]
  exact removeLoop_cons_succ drop b (rest.length + 1) 0 rest

/-- With `screenIsOn` read from the stored brightness, a candidate is not
marked while the stored brightness is still positive, even though every
reading during the sweep is 0. -/
theorem wakeUpDeviceViaPowerKey_stale_brightness :
    (oneCandidateStale.wakeUpDeviceViaPowerKey twoDevicesNoPowerKey).keyInfos
      = [⟨"gpio-keys", 0, 116, true⟩]
    ∧ (oneCandidateStale.wakeUpDeviceViaPowerKey twoDevicesNoPowerKey).reads = 5 := by
  decide

/-- C5 (evaluation at the failing input): the device lists `gpio-keys` and
`qwerty`, neither layout has a POWER line; after the discovery part the
candidate list still holds `qwerty` with powerKeycode 0: `removeAt(0)` moves
it to index 0 and the loop goes on at index 1. -/
theorem probeDiscovery_keeps_adjacent_zero_code :
    (idleSession.probeDiscovery twoDevicesNoPowerKey true OsType.ANDROID_JB).keyInfos
      = [⟨"qwerty", 0, 0, true⟩] := by
  decide

/-- C6 (evaluation at the failing input): two candidates, screen off, every
backlight reading 0; after `wakeUpDeviceViaPowerKey` the second candidate is
marked unsuccessful but is still in the list, after ten readings. -/
theorem wakeUpDeviceViaPowerKey_keeps_failed_candidate :
    (twoCandidates.wakeUpDeviceViaPowerKey twoDevicesNoPowerKey).keyInfos
      = [⟨"qwerty", 1, 116, false⟩]
    ∧ (twoCandidates.wakeUpDeviceViaPowerKey twoDevicesNoPowerKey).reads = 10 := by
  decide

/-- C7 (evaluation at the failing inputs): for the layout line
"keyboard 5 POWER" the lookup reports success with code 5 although no line
has "key" as its first token; for "key  116 POWER" (two spaces) it reports
success with code 0 although the second token is 116; and for
"key<TAB>116 POWER" it reports success with code 0 as well. -/
theorem getKeyCodeFromKeyLayout_misparses :
    getKeyCodeFromKeyLayout (deviceWithLayout "keyboard 5 POWER\n") true "gpio-keys"
        "POWER".toList 0 = (true, 5)
    ∧ (∀ line ∈ split '\n' "keyboard 5 POWER\n".toList,
        (tokens line).head? ≠ some "key".toList)
    ∧ getKeyCodeFromKeyLayout (deviceWithLayout "key  116 POWER\n") true "gpio-keys"
        "POWER".toList 7 = (true, 0)
    ∧ tokens "key  116 POWER".toList = ["key".toList, "116".toList, "POWER".toList]
    ∧ getKeyCodeFromKeyLayout (deviceWithLayout "key\t116 POWER\n") true "gpio-keys"
        "POWER".toList 7 = (true, 0)
    ∧ tokens "key\t116 POWER".toList = ["key".toList, "116".toList, "POWER".toList] := by
  decide

end Sevensquare
